import Mathlib

/-!
Catalog-and-cart backend (`src/app.js`): record store and cart merge

A shallow embedding of the route handlers of `src/app.js`.

* A handler reads its collection with `loadJSONFile`, works on it and, on some
  paths, writes it back with `saveJSONFile`.  Each handler is modelled as a
  function from the loaded collection to the collection the file holds once
  the handler is done (the saved one, or the loaded one when nothing is
  saved), paired with the response.
* Values are what `JSON.parse` yields.  Numbers are the integer-valued doubles
  (`Int`): `+` rounds its exact sum to the nearest double.  Fractional values
  and `-0` have no representation.
* `express.json()` hands over a JSON object or a JSON array as the body.  The
  update route stores the body, so a stored product is a `Record`: an object
  or an array.  The routes that only read named fields of the body take it as
  an object (`Obj`): there an array acts as the object of its entries, none of
  which has such a name.  A stored cart is always an object.  A query
  parameter is an optional string.
* An object is an association list: `getProp` reads the first binding of a
  key, `setProp` overwrites it in place or appends a new one.  The special
  enumeration order JavaScript gives to integer-like keys is not modelled.
-/

namespace App

/-! ## JSON values -/

/-- JSON values as produced by `JSON.parse`. -/
inductive JVal where
  | null
  | bool (b : Bool)
  | num (n : Int)
  | str (s : String)
  | arr (xs : List JVal)
  | obj (kvs : List (String × JVal))

/-- JSON objects: the key/value bindings in enumeration order. -/
abbrev Obj := List (String × JVal)

/-- Property read `o[k]`; `none` stands for `undefined`. -/
def getProp : Obj → String → Option JVal
  | [], _ => none
  | (k', v) :: rest, k => if k' = k then some v else getProp rest k

/-- Property write `o[k] = v`: an existing key keeps its position. -/
def setProp : Obj → String → JVal → Obj
  | [], k, v => [(k, v)]
  | (k', v') :: rest, k, v =>
    if k' = k then (k', v) :: rest else (k', v') :: setProp rest k v

/-- Object spread: the object literal `{ ...base, ...over }`, where the own keys of
`over` are copied onto `base` one by one. -/
def spreadInto (base over : Obj) : Obj :=
  (over.map Prod.fst).foldl
    (fun acc k => match getProp over k with
      | some v => setProp acc k v
      | none => acc)
    base

/-- JavaScript truthiness (`ToBoolean`) of a value that may be `undefined`. -/
def truthy : Option JVal → Bool
  | none => false
  | some .null => false
  | some (.bool b) => b
  | some (.num n) => n != 0
  | some (.str s) => s != ""
  | some (.arr _) => true
  | some (.obj _) => true

/-- What `express.json()` hands over as a body, and so what a stored product can be:
a JSON object or a JSON array. -/
inductive Record where
  | object (o : Obj)
  | array (xs : List JVal)

/-- The JSON value of a record. -/
def Record.toJVal : Record → JVal
  | .object o => .obj o
  | .array xs => .arr xs

/-- Property read `p.id` on a stored record: an array read from JSON has no `id`. -/
def Record.idProp : Record → Option JVal
  | .object o => getProp o "id"
  | .array _ => none

/-- The comparison `v === s` for a string `s`. -/
def strictEqStr : Option JVal → String → Bool
  | some (.str t), s => t == s
  | _, _ => false

/-- The callback `(c) => c.id === id` on a stored cart. -/
def hasId (id : String) (p : Obj) : Bool :=
  strictEqStr (getProp p "id") id

/-- The callback `(p) => p.id === id` on a stored product. -/
def recordHasId (id : String) (p : Record) : Bool :=
  strictEqStr p.idProp id

/-- Method `Array.prototype.findIndex`; `none` stands for `-1`. -/
def findIndex {α : Type} (f : α → Bool) : List α → Option Nat
  | [] => none
  | x :: xs => if f x then some 0 else (findIndex f xs).map (· + 1)

/-! ## Strings and numbers -/

mutual
/-- Conversion `ToString` on a JSON value; a number prints all its digits, as
JavaScript does below 10^21. -/
def JVal.toStr : JVal → String
  | .null => "null"
  | .bool b => if b then "true" else "false"
  | .num n => toString n
  | .str s => s
  | .arr xs => JVal.joinElems xs
  | .obj _ => "[object Object]"
/-- Method `Array.prototype.join(",")`: `null` elements print as the empty string. -/
def JVal.joinElems : List JVal → String
  | [] => ""
  | [x] => (match x with
    | .null => ""
    | y => JVal.toStr y)
  | x :: y :: rest =>
    (match x with
      | .null => ""
      | z => JVal.toStr z) ++ "," ++ JVal.joinElems (y :: rest)
end

/-- JavaScript primitives a JSON value converts to (`ToPrimitive`). -/
inductive Prim where
  | undefined
  | null
  | bool (b : Bool)
  | num (n : Int)
  | str (s : String)

/-- Conversion `ToPrimitive`: arrays and plain objects convert through `toString`. -/
def toPrimitive : Option JVal → Prim
  | none => .undefined
  | some .null => .null
  | some (.bool b) => .bool b
  | some (.num n) => .num n
  | some (.str s) => .str s
  | some (.arr xs) => .str (JVal.joinElems xs)
  | some (.obj _) => .str "[object Object]"

/-- Conversion `ToString` on a primitive; a number prints all its digits, as
JavaScript does below 10^21. -/
def Prim.toStr : Prim → String
  | .undefined => "undefined"
  | .null => "null"
  | .bool b => if b then "true" else "false"
  | .num n => toString n
  | .str s => s

/-- Conversion `ToNumber` on a non-string primitive; `none` stands for `NaN`. -/
def Prim.toNumber : Prim → Option Int
  | .undefined => none
  | .null => some 0
  | .bool b => some (if b then 1 else 0)
  | .num n => some n
  | .str _ => none

/-- Number of binary digits of `a`, by halving at most `fuel` times. -/
def bitLengthAux : Nat → Nat → Nat
  | 0, _ => 0
  | fuel + 1, a => if a = 0 then 0 else bitLengthAux fuel (a / 2) + 1

/-- Number of binary digits of `a`. -/
def bitLength (a : Nat) : Nat :=
  bitLengthAux a a

/-- The double nearest to an integer, ties going to the even significand (53 binary
digits); `none` stands for an infinity, which is what a magnitude that rounds to
2^1024 or more (more than 1024 binary digits) gives. -/
def roundToDouble (n : Int) : Option Int :=
  let a := n.natAbs
  if a ≤ 2 ^ 53 then some n
  else
    let e := bitLength a - 53
    let q := a / 2 ^ e
    let r := a % 2 ^ e
    let half := 2 ^ (e - 1)
    let q := if half < r || (r == half && q % 2 == 1) then q + 1 else q
    let m := q * 2 ^ e
    if bitLength m ≤ 1024 then some (if n < 0 then -(m : Int) else (m : Int)) else none

/-- An integer that is a double. -/
def isDouble (n : Int) : Prop :=
  roundToDouble n = some n

/-- What the operator `+` can return. -/
inductive AddResult where
  | num (n : Int)
  | infinity
  | nan
  | str (s : String)

/-- The operator `a + b`; on two numbers it is the exact sum rounded to a double. -/
def jsAdd (a b : Option JVal) : AddResult :=
  match toPrimitive a, toPrimitive b with
  | .str s, q => .str (s ++ q.toStr)
  | p, .str t => .str (p.toStr ++ t)
  | p, q =>
    match p.toNumber, q.toNumber with
    | some x, some y =>
      (match roundToDouble (x + y) with
        | some z => .num z
        | none => .infinity)
    | _, _ => .nan

/-- Round trip `JSON.stringify` then `JSON.parse` on the result of `+`: `NaN` and the
infinities are written as `null`. -/
def AddResult.toJSON : AddResult → JVal
  | .num n => .num n
  | .infinity => .null
  | .nan => .null
  | .str s => .str s

/-- White space skipped by `parseInt` (`StrWhiteSpaceChar`). -/
def isStrWhiteSpace (c : Char) : Bool :=
  let n := c.toNat
  n == 0x09 || n == 0x0A || n == 0x0B || n == 0x0C || n == 0x0D || n == 0x20 ||
  n == 0xA0 || n == 0x1680 || (0x2000 ≤ n && n ≤ 0x200A) || n == 0x2028 ||
  n == 0x2029 || n == 0x202F || n == 0x205F || n == 0x3000 || n == 0xFEFF

/-- Value of a character as a digit, whatever the radix. -/
def digitValue (c : Char) : Option Nat :=
  let n := c.toNat
  if 48 ≤ n && n ≤ 57 then some (n - 48)
  else if 97 ≤ n && n ≤ 122 then some (n - 97 + 10)
  else if 65 ≤ n && n ≤ 90 then some (n - 65 + 10)
  else none

/-- Is the character a digit of the radix. -/
def isRadixDigit (radix : Nat) (c : Char) : Bool :=
  match digitValue c with
  | some d => d < radix
  | none => false

/-- Value of a sequence of digits of the radix, most significant first. -/
def digitsValue (radix : Nat) (cs : List Char) : Nat :=
  cs.foldl (fun acc c => acc * radix + (digitValue c).getD 0) 0

/-- Function `parseInt(s)` on the characters of `s`, without a radix argument; `none` stands
for `NaN`. -/
def parseIntChars (cs : List Char) : Option Int :=
  let s := cs.dropWhile isStrWhiteSpace
  let sign : Int := match s with
    | '-' :: _ => -1
    | _ => 1
  let s := match s with
    | '-' :: t => t
    | '+' :: t => t
    | _ => s
  let (radix, s) := match s with
    | '0' :: 'x' :: t => (16, t)
    | '0' :: 'X' :: t => (16, t)
    | _ => (10, s)
  let z := s.takeWhile (isRadixDigit radix)
  if z.isEmpty then none else some (sign * (digitsValue radix z : Int))

/-- Function `parseInt(s)`. -/
def parseInt (s : String) : Option Int :=
  parseIntChars s.toList

/-- Call `xs.slice(0, e)` where `e` may be `NaN` (`none`), which counts as `0`; a negative
`e` counts from the end. -/
def sliceTo {α : Type} (xs : List α) (e : Option Int) : List α :=
  let rel : Int := e.getD 0
  let fin : Int := if rel < 0 then max ((xs.length : Int) + rel) 0 else min rel xs.length
  xs.take fin.toNat

/-! ## Responses -/

/-- What a handler answers. -/
inductive Response where
  /-- Answer `res.status(status).json(body)`. -/
  | json (status : Nat) (body : JVal)
  /-- The handler threw (a `TypeError`): Express answers 500 and nothing is saved. -/
  | serverError

/-- HTTP status of a response. -/
def Response.status : Response → Nat
  | .json s _ => s
  | .serverError => 500

/-- The body `{ error: msg }`. -/
def errorBody (msg : String) : JVal :=
  .obj [("error", .str msg)]

/-! ## Product routes -/

/-- Handler `productsRouter.get('/')`: the products, cut by `limit` when it is truthy. -/
def productsGetAll (limit : Option String) (products : List Record) : Response :=
  match limit with
  | some l =>
    if l != "" then
      .json 200 (.obj [("products",
        .arr ((sliceTo products (parseInt l)).map Record.toJVal))])
    else
      .json 200 (.obj [("products", .arr (products.map Record.toJVal))])
  | none => .json 200 (.obj [("products", .arr (products.map Record.toJVal))])

/-- Handler `productsRouter.get('/:pid')`. -/
def productsGetById (pid : String) (products : List Record) : Response :=
  match products.find? (recordHasId pid) with
  | some product => .json 200 (.obj [("product", product.toJVal)])
  | none => .json 404 (errorBody "Producto no encontrado")

/-- The fields the validation of `productsRouter.post('/')` tests, in its order. -/
def requiredFields : List String :=
  ["title", "description", "code", "price", "stock", "category", "thumbnails"]

/-- Handler `productsRouter.post('/')`; `now` is the reading of `Date.now()`. An array
body has none of the fields and is refused like the object of its entries. -/
def productsPost (now : Nat) (newProduct : Obj) (products : List Record) :
    List Record × Response :=
  if !truthy (getProp newProduct "title") ||
     !truthy (getProp newProduct "description") ||
     !truthy (getProp newProduct "code") ||
     !truthy (getProp newProduct "price") ||
     !truthy (getProp newProduct "stock") ||
     !truthy (getProp newProduct "category") ||
     !truthy (getProp newProduct "thumbnails") then
    (products, .json 400 (errorBody "Todos los campos son obligatorios excepto thumbnails"))
  else
    let newId := toString now
    let productToAdd := setProp (spreadInto [("id", .str newId)] newProduct) "status" (.bool true)
    (products ++ [.object productToAdd],
      .json 201 (.obj [("message", .str "Producto agregado"), ("product", .obj productToAdd)]))

/-- The statement `updatedProduct.id = pid` as `JSON.stringify` sees it: on an object
the property is set; on an array it is a property that is not an index, which is
written neither to the file nor to the response. -/
def stampId (updatedProduct : Record) (pid : String) : Record :=
  match updatedProduct with
  | .object o => .object (setProp o "id" (.str pid))
  | .array xs => .array xs

/-- Handler `productsRouter.put('/:pid')`. -/
def productsPut (pid : String) (updatedProduct : Record) (products : List Record) :
    List Record × Response :=
  match findIndex (recordHasId pid) products with
  | some productIndex =>
    let updatedProduct := stampId updatedProduct pid
    (products.set productIndex updatedProduct,
      .json 200 (.obj [("message", .str "Producto actualizado"),
        ("product", updatedProduct.toJVal)]))
  | none => (products, .json 404 (errorBody "Producto no encontrado"))

/-- Handler `productsRouter.delete('/:pid')`. -/
def productsDelete (pid : String) (products : List Record) : List Record × Response :=
  let updatedProducts := products.filter (fun p => !recordHasId pid p)
  if updatedProducts.length < products.length then
    (updatedProducts, .json 200 (.obj [("message", .str "Producto eliminado")]))
  else
    (products, .json 404 (errorBody "Producto no encontrado"))

/-! ## Cart routes -/

/-- Handler `cartsRouter.post('/')`; `now` is the reading of `Date.now()`. -/
def cartsPost (now : Nat) (newCart : Obj) (carts : List Obj) : List Obj × Response :=
  let newId := toString now
  let cartToAdd := spreadInto [("id", .str newId), ("products", .arr [])] newCart
  (carts ++ [cartToAdd],
    .json 201 (.obj [("message", .str "Carrito creado"), ("cart", .obj cartToAdd)]))

/-- Handler `cartsRouter.get('/:cid')`: a property that is `undefined` is left out of the
body by `res.json`. -/
def cartsGet (cid : String) (carts : List Obj) : Response :=
  match carts.find? (hasId cid) with
  | some cart =>
    .json 200 (.obj (match getProp cart "products" with
      | some ps => [("products", ps)]
      | none => []))
  | none => .json 404 (errorBody "Carrito no encontrado")

/-- Call `cart.products.findIndex((p) => p.id === pid)` on the elements of the array:
reading `p.id` throws on `null` (`none`), is the property on an object and is
`undefined` on any other value. -/
def findLineIndex (pid : String) : List JVal → Option (Option Nat)
  | [] => some none
  | .null :: _ => none
  | .obj o :: rest =>
    if strictEqStr (getProp o "id") pid then some (some 0)
    else (findLineIndex pid rest).map (fun r => r.map (· + 1))
  | _ :: rest => (findLineIndex pid rest).map (fun r => r.map (· + 1))

/-- The line item `{ id: pid, quantity }` as it is written to the file: a quantity
that is `undefined` is left out. -/
def newLine (pid : String) (quantity : Option JVal) : JVal :=
  .obj (("id", .str pid) :: (match quantity with
    | some q => [("quantity", q)]
    | none => []))

/-- The statement `cart.products[productIndex].quantity += quantity`, as it is
written to the file. Only an object has an `id`, so the element is one. -/
def addQuantity (lines : List JVal) (productIndex : Nat) (quantity : Option JVal) :
    List JVal :=
  match lines[productIndex]? with
  | some (.obj line) =>
    lines.set productIndex
      (.obj (setProp line "quantity" (jsAdd (getProp line "quantity") quantity).toJSON))
  | _ => lines

/-- Handler `cartsRouter.post('/:cid/product/:pid')`. -/
def cartsPostProduct (cid pid : String) (body : Obj) (carts : List Obj) :
    List Obj × Response :=
  let quantity := getProp body "quantity"
  match findIndex (hasId cid) carts with
  | some cartIndex =>
    match carts[cartIndex]? with
    | some cart =>
      match getProp cart "products" with
      | some (.arr lines) =>
        match findLineIndex pid lines with
        | some (some productIndex) =>
          let lines := addQuantity lines productIndex quantity
          (carts.set cartIndex (setProp cart "products" (.arr lines)),
            .json 200 (.obj [("message", .str "Producto agregado al carrito"),
              ("cart", .arr lines)]))
        | some none =>
          let lines := lines ++ [newLine pid quantity]
          (carts.set cartIndex (setProp cart "products" (.arr lines)),
            .json 200 (.obj [("message", .str "Producto agregado al carrito"),
              ("cart", .arr lines)]))
        | none => (carts, .serverError)
      | _ => (carts, .serverError)
    | none => (carts, .serverError)
  | none => (carts, .json 404 (errorBody "Carrito no encontrado"))

/-! ## Histories of product operations -/

/-- One request to the product routes that write. -/
inductive ProductOp where
  | create (now : Nat) (input : Obj)
  | update (pid : String) (input : Record)
  | delete (pid : String)

/-- The handler a request reaches. -/
def ProductOp.apply : ProductOp → List Record → List Record × Response
  | .create now input, ps => productsPost now input ps
  | .update pid input, ps => productsPut pid input ps
  | .delete pid, ps => productsDelete pid ps

/-- A response with a 2xx status. -/
def Response.isSuccess (r : Response) : Bool :=
  200 ≤ r.status && r.status < 300

/-- The collection after a history of requests every one of which succeeds; `none`
when one of them fails. -/
def runOps : List ProductOp → List Record → Option (List Record)
  | [], ps => some ps
  | op :: ops, ps =>
    if (op.apply ps).2.isSuccess then runOps ops (op.apply ps).1 else none

/-- Every stored product has a non-empty string as id and no two share an id. -/
def IdInvariant (ps : List Record) : Prop :=
  (∀ p ∈ ps, ∃ s, p.idProp = some (.str s) ∧ s ≠ "") ∧
  (ps.map Record.idProp).Nodup

/-- The id a create gives its product: the `id` of the input when it has one,
otherwise the clock reading in decimal. -/
def createdId (now : Nat) (input : Obj) : Option JVal :=
  match getProp input "id" with
  | some v => some v
  | none => some (.str (toString now))

/-- Histories in which every create gives its product an id that is a non-empty
string and not the id of a product stored at that moment, and every update has a
JSON object as input. -/
def admissible : List ProductOp → List Record → Bool
  | [], _ => true
  | .create now input :: ops, ps =>
    (match createdId now input with
      | some (.str s) => s != "" && ps.all (fun p => !recordHasId s p)
      | _ => false) &&
      admissible ops (productsPost now input ps).1
  | .update pid (.object o) :: ops, ps => admissible ops (productsPut pid (.object o) ps).1
  | .update _ (.array _) :: _, _ => false
  | .delete pid :: ops, ps => admissible ops (productsDelete pid ps).1

/-! ## Notions the statements use -/

/-- A field that is absent (`undefined`) or holds one of the falsy JSON values. -/
def absentOrFalsy (v : Option JVal) : Prop :=
  v = none ∨ v = some .null ∨ v = some (.bool false) ∨ v = some (.num 0) ∨ v = some (.str "")

/-- The answer of `productsRouter.post('/')` to an input that fails validation. -/
def validationError : Response :=
  .json 400 (errorBody "Todos los campos son obligatorios excepto thumbnails")

/-! ## Sample data -/

/-- An input with the seven fields, `thumbnails` being the empty sequence. -/
def sampleInput : Obj :=
  [("title", .str "A"), ("description", .str "d"), ("code", .str "c1"), ("price", .num 10),
    ("stock", .num 5), ("category", .str "x"), ("thumbnails", .arr [])]

/-- An input with the seven fields whose `stock` is `0`. -/
def zeroStockInput : Obj :=
  [("title", .str "A"), ("description", .str "d"), ("code", .str "c1"), ("price", .num 10),
    ("stock", .num 0), ("category", .str "x"), ("thumbnails", .arr [])]

/-- A stored product with id `"7"`. -/
def staleProduct : Obj :=
  [("id", .str "7"), ("title", .str "old")]

/-- An input with the seven fields that carries the id `"7"` of its own. -/
def inputWithId : Obj :=
  ("id", .str "7") :: sampleInput

/-- Is the value a line item with the id `pid`. -/
def lineHasId (pid : String) : JVal → Bool
  | .obj o => hasId pid o
  | _ => false

/-- Line items none of which is `null` and none of which has the id `pid`. -/
def noLineWithId (pid : String) (lines : List JVal) : Prop :=
  ∀ l ∈ lines, l ≠ .null ∧ lineHasId pid l = false

/-- A cart collection whose cart `"c"` already holds five of product `"x"`. -/
def cartsWithLine : List Obj :=
  [[("id", .str "c"), ("products", .arr [.obj [("id", .str "x"), ("quantity", .num 5)]])]]

/-- A cart collection whose cart `"c"` holds `null` where a line item should be. -/
def cartsWithNull : List Obj :=
  [[("id", .str "c"), ("products", .arr [.null])]]

/-- A cart collection whose cart `"c"` is empty. -/
def cartsWithEmpty : List Obj :=
  [[("id", .str "c"), ("products", .arr [])]]

/-! ## Objects: reading after writing -/

theorem getProp_setProp_same (o : Obj) (k : String) (v : JVal) :
    getProp (setProp o k v) k = some v := by
  induction o with
  | nil => simp [setProp, getProp]
  | cons kv rest ih =>
    obtain ⟨k', v'⟩ := kv
    by_cases h : k' = k
    · simp [setProp, getProp, h]
    · simp [setProp, getProp, h, ih]

theorem getProp_setProp_other (o : Obj) (k j : String) (v : JVal) (hj : j ≠ k) :
    getProp (setProp o k v) j = getProp o j := by
  induction o with
  | nil =>
    have : ¬ k = j := fun e => hj e.symm
    simp [setProp, getProp, this]
  | cons kv rest ih =>
    obtain ⟨k', v'⟩ := kv
    by_cases h : k' = k
    · subst h
      have : ¬ k' = j := fun e => hj e.symm
      simp [setProp, getProp, this]
    · by_cases h2 : k' = j
      · subst h2
        simp [setProp, getProp, h]
      · simp [setProp, getProp, h, h2, ih]

theorem mem_keys_of_getProp (o : Obj) (k : String) (v : JVal) (h : getProp o k = some v) :
    k ∈ o.map Prod.fst := by
  induction o with
  | nil => simp [getProp] at h
  | cons kv rest ih =>
    obtain ⟨k', v'⟩ := kv
    by_cases hk : k' = k
    · simp [hk]
    · simp [getProp, hk] at h
      simp [ih h]

/-- Copying keys that do not include `j` leaves `j` as it was. -/
theorem getProp_copy_other (over : Obj) (j : String) (ks : List String) (hj : j ∉ ks)
    (base : Obj) :
    getProp (ks.foldl (fun acc k => match getProp over k with
      | some v => setProp acc k v
      | none => acc) base) j = getProp base j := by
  induction ks generalizing base with
  | nil => rfl
  | cons k ks ih =>
    simp only [List.mem_cons, not_or] at hj
    simp only [List.foldl_cons]
    rw [ih hj.2]
    cases hg : getProp over k with
    | none => rfl
    | some v => exact getProp_setProp_other base k j v hj.1

/-- Copying keys that include `j`, bound to `v`, leaves `j` bound to `v`. -/
theorem getProp_copy_mem (over : Obj) (j : String) (v : JVal) (hv : getProp over j = some v)
    (ks : List String) (hj : j ∈ ks) (base : Obj) :
    getProp (ks.foldl (fun acc k => match getProp over k with
      | some v => setProp acc k v
      | none => acc) base) j = some v := by
  induction ks generalizing base with
  | nil => simp at hj
  | cons k ks ih =>
    simp only [List.foldl_cons]
    by_cases hmem : j ∈ ks
    · exact ih hmem _
    · have hk : j = k := by
        rcases List.mem_cons.mp hj with h | h
        · exact h
        · exact absurd h hmem
      subst hk
      rw [getProp_copy_other over j ks hmem, hv]
      exact getProp_setProp_same base j v

theorem getProp_spreadInto_some (base over : Obj) (k : String) (v : JVal)
    (h : getProp over k = some v) : getProp (spreadInto base over) k = some v :=
  getProp_copy_mem over k v h _ (mem_keys_of_getProp over k v h) base

theorem getProp_spreadInto_none (base over : Obj) (k : String)
    (h : getProp over k = none) : getProp (spreadInto base over) k = getProp base k := by
  unfold spreadInto
  generalize over.map Prod.fst = ks
  induction ks generalizing base with
  | nil => rfl
  | cons j ks ih =>
    simp only [List.foldl_cons]
    rw [ih]
    cases hg : getProp over j with
    | none => rfl
    | some w =>
      have : k ≠ j := by
        intro e
        rw [e, hg] at h
        cases h
      exact getProp_setProp_other base j k w this

/-! ## Searching a collection -/

theorem findIndex_eq_none {α : Type} (f : α → Bool) (xs : List α)
    (h : ∀ x ∈ xs, f x = false) : findIndex f xs = none := by
  induction xs with
  | nil => rfl
  | cons x xs ih =>
    have hx : f x = false := h x (List.mem_cons_self x xs)
    have := ih (fun y hy => h y (List.mem_cons_of_mem x hy))
    simp [findIndex, hx, this]

/-- What `findIndex` finds is the first position where the test holds. -/
theorem findIndex_some {α : Type} (f : α → Bool) (xs : List α) (i : Nat)
    (h : findIndex f xs = some i) :
    (∃ x, xs[i]? = some x ∧ f x = true) ∧ ∀ j, j < i → ∀ y, xs[j]? = some y → f y = false := by
  induction xs generalizing i with
  | nil => simp [findIndex] at h
  | cons x xs ih =>
    by_cases hx : f x = true
    · simp [findIndex, hx] at h
      subst h
      exact ⟨⟨x, by simp, hx⟩, fun j hj => absurd hj (Nat.not_lt_zero j)⟩
    · simp only [findIndex, hx] at h
      cases hr : findIndex f xs with
      | none => simp [hr] at h
      | some i' =>
        simp [hr] at h
        subst h
        obtain ⟨⟨y, hy, hfy⟩, hlt⟩ := ih i' hr
        refine ⟨⟨y, by simpa using hy, hfy⟩, ?_⟩
        intro j hj z hz
        cases j with
        | zero =>
          simp at hz
          subst hz
          simpa using hx
        | succ j =>
          simp at hz
          exact hlt j (by omega) z hz

theorem findIndex_isSome {α : Type} (f : α → Bool) (xs : List α)
    (h : ∃ x ∈ xs, f x = true) : ∃ i, findIndex f xs = some i := by
  induction xs with
  | nil => simp at h
  | cons x xs ih =>
    by_cases hx : f x = true
    · exact ⟨0, by simp [findIndex, hx]⟩
    · obtain ⟨y, hy, hfy⟩ := h
      rcases List.mem_cons.mp hy with e | e
      · subst e
        exact absurd hfy hx
      · obtain ⟨i, hi⟩ := ih ⟨y, e, hfy⟩
        exact ⟨i + 1, by simp [findIndex, hx, hi]⟩

theorem truthy_eq_false_iff (v : Option JVal) : truthy v = false ↔ absentOrFalsy v := by
  unfold absentOrFalsy
  cases v with
  | none => simp [truthy]
  | some w =>
    cases w with
    | null => simp [truthy]
    | bool b => cases b <;> simp [truthy]
    | num n => simp [truthy]
    | str s => simp [truthy]
    | arr xs => simp [truthy]
    | obj kvs => simp [truthy]

theorem strictEqStr_eq_true_iff (v : Option JVal) (id : String) :
    strictEqStr v id = true ↔ v = some (.str id) := by
  cases v with
  | none => simp [strictEqStr]
  | some w => cases w <;> simp [strictEqStr]

theorem hasId_eq_true_iff (id : String) (p : Obj) :
    hasId id p = true ↔ getProp p "id" = some (.str id) :=
  strictEqStr_eq_true_iff _ _

theorem recordHasId_eq_true_iff (id : String) (p : Record) :
    recordHasId id p = true ↔ p.idProp = some (.str id) :=
  strictEqStr_eq_true_iff _ _

/-- Claim C4: creating a product answers the validation error exactly when one of
title, description, code, price, stock, category, thumbnails is absent or holds a
falsy value (`null`, `false`, `0`, the empty string), and in that case the
collection is the one before the call. -/
theorem productsPost_validation (now : Nat) (input : Obj) (products : List Record) :
    ((productsPost now input products).2 = validationError ↔
      ∃ f ∈ requiredFields, absentOrFalsy (getProp input f)) ∧
    ((productsPost now input products).2 = validationError →
      (productsPost now input products).1 = products) := by
  simp only [← truthy_eq_false_iff]
  unfold productsPost validationError
  by_cases hc : (!truthy (getProp input "title") ||
     !truthy (getProp input "description") ||
     !truthy (getProp input "code") ||
     !truthy (getProp input "price") ||
     !truthy (getProp input "stock") ||
     !truthy (getProp input "category") ||
     !truthy (getProp input "thumbnails")) = true
  · rw [if_pos hc]
    refine ⟨⟨fun _ => ?_, fun _ => rfl⟩, fun _ => rfl⟩
    simp only [Bool.or_eq_true, Bool.not_eq_true'] at hc
    simp only [requiredFields, List.mem_cons, List.mem_singleton, exists_eq_or_imp,
      exists_eq_left]
    simp only [List.not_mem_nil, false_and, exists_false, or_false]
    tauto
  · rw [if_neg hc]
    refine ⟨⟨fun h => ?_, fun h => ?_⟩, fun h => ?_⟩
    · simp at h
    · exfalso
      apply hc
      simp only [Bool.or_eq_true, Bool.not_eq_true']
      simp only [requiredFields, List.mem_cons, List.mem_singleton, exists_eq_or_imp,
        exists_eq_left, List.not_mem_nil, false_and, exists_false, or_false] at h
      tauto
    · simp at h

theorem productsPost_validation_witness :
    (productsPost 5 zeroStockInput []).2 = validationError ∧
      (productsPost 5 zeroStockInput []).1 = [] :=
  ⟨rfl, (productsPost_validation 5 zeroStockInput []).2 rfl⟩

/-- Claim C3, the code at an input that has all seven fields: with `stock` equal to
`0` every required field is present, and still the product is refused with the
validation error and nothing is stored. -/
theorem productsPost_rejects_zero_stock :
    (∀ f ∈ requiredFields, (getProp zeroStockInput f).isSome = true) ∧
      productsPost 1000 zeroStockInput [] = ([], validationError) := by
  refine ⟨by decide, rfl⟩

/-- Claim C7: deleting an id that no stored product has answers 404 and leaves the
collection as it was. -/
theorem productsDelete_missing (pid : String) (products : List Record)
    (h : ∀ p ∈ products, recordHasId pid p = false) :
    productsDelete pid products = (products, .json 404 (errorBody "Producto no encontrado")) := by
  have hf : products.filter (fun p => !recordHasId pid p) = products := by
    apply List.filter_eq_self.mpr
    intro p hp
    simp [h p hp]
  simp [productsDelete, hf]

theorem productsDelete_missing_witness :
    productsDelete "9" [.object [("id", .str "1")]] =
      ([.object [("id", .str "1")]], .json 404 (errorBody "Producto no encontrado")) :=
  productsDelete_missing "9" [.object [("id", .str "1")]] (by decide)

/-- Claim C2 fails as stated: an input that carries the id of a product already
stored is created with that id, and looking the id up returns the older product,
not the created one. -/
theorem productsPost_getById_counterexample :
    ∃ P, (productsPost 1000 inputWithId [.object staleProduct]).2 =
        .json 201 (.obj [("message", .str "Producto agregado"), ("product", .obj P)]) ∧
      getProp P "id" = some (.str "7") ∧
      productsGetById "7" (productsPost 1000 inputWithId [.object staleProduct]).1 ≠
        .json 200 (.obj [("product", .obj P)]) := by
  refine ⟨_, rfl, rfl, ?_⟩
  intro h
  have h2 : productsGetById "7" (productsPost 1000 inputWithId [.object staleProduct]).1 =
      .json 200 (.obj [("product", .obj staleProduct)]) := rfl
  rw [h2] at h
  simp only [Response.json.injEq, JVal.obj.injEq, List.cons.injEq, Prod.mk.injEq, true_and,
    and_true] at h
  exact absurd (congrArg List.length h) (by decide)

/-- Claim C2, amended: when creating a product returns `P` and the id of `P` is a
string that no product stored before the call has, looking that id up in the
resulting collection returns `P`, and the status of `P` is `true`. -/
theorem productsPost_then_getById (now : Nat) (input : Obj) (products : List Record) (P : Obj)
    (pid : String)
    (hP : (productsPost now input products).2 =
      .json 201 (.obj [("message", .str "Producto agregado"), ("product", .obj P)]))
    (hid : getProp P "id" = some (.str pid))
    (hfresh : ∀ p ∈ products, recordHasId pid p = false) :
    productsGetById pid (productsPost now input products).1 =
        .json 200 (.obj [("product", .obj P)]) ∧
      getProp P "status" = some (.bool true) := by
  unfold productsPost at hP ⊢
  split at hP
  · simp at hP
  · rename_i hc
    rw [if_neg hc]
    simp only [Response.json.injEq, JVal.obj.injEq, List.cons.injEq, Prod.mk.injEq, true_and,
      and_true] at hP
    subst hP
    refine ⟨?_, getProp_setProp_same _ _ _⟩
    have hnone : List.find? (recordHasId pid) products = none :=
      List.find?_eq_none.mpr (fun p hp => by simp [hfresh p hp])
    have hP : recordHasId pid (.object (setProp (spreadInto [("id", JVal.str (toString now))]
        input) "status" (JVal.bool true))) = true := (recordHasId_eq_true_iff _ _).mpr hid
    simp [productsGetById, List.find?_append, hnone, hP, Record.toJVal]

theorem productsPost_then_getById_witness :
    productsGetById "1000" (productsPost 1000 sampleInput [.object staleProduct]).1 =
        .json 200 (.obj [("product",
          .obj (("id", .str "1000") :: (sampleInput ++ [("status", .bool true)])))]) ∧
      getProp (("id", .str "1000") :: (sampleInput ++ [("status", .bool true)])) "status" =
        some (.bool true) :=
  productsPost_then_getById 1000 sampleInput [.object staleProduct] _ "1000" rfl rfl (by decide)

/-- Claim C5 fails as stated: the limit `abc` does not parse as a number, and the
listing is then empty instead of the whole collection. -/
theorem productsGetAll_non_numeric_counterexample :
    parseInt "abc" = none ∧
      productsGetAll (some "abc") [.object staleProduct] ≠
        .json 200 (.obj [("products", .arr ([Record.object staleProduct].map Record.toJVal))]) := by
  refine ⟨by decide, ?_⟩
  intro h
  have h2 : productsGetAll (some "abc") [.object staleProduct] =
      .json 200 (.obj [("products", .arr [])]) := rfl
  rw [h2] at h
  simp at h

theorem parseInt_empty : parseInt "" = none := by decide

/-- Claim C5, amended: the listing is the whole collection when the limit is absent
or the empty string, is empty when the limit is a non-empty string that does not
parse as a number, and is the first `n` products in stored order when the limit
parses to a positive integer `n`. -/
theorem productsGetAll_limit (products : List Record) :
    productsGetAll none products = .json 200 (.obj [("products", .arr (products.map Record.toJVal))]) ∧
    productsGetAll (some "") products =
      .json 200 (.obj [("products", .arr (products.map Record.toJVal))]) ∧
    (∀ l : String, l ≠ "" → parseInt l = none →
      productsGetAll (some l) products = .json 200 (.obj [("products", .arr [])])) ∧
    (∀ (l : String) (n : Int), parseInt l = some n → 0 < n →
      productsGetAll (some l) products =
        .json 200 (.obj [("products", .arr ((products.take n.toNat).map Record.toJVal))])) := by
  refine ⟨rfl, rfl, ?_, ?_⟩
  · intro l hl hp
    simp [productsGetAll, hl, hp, sliceTo]
  · intro l n hp hn
    have hl : l ≠ "" := by
      intro e
      rw [e, parseInt_empty] at hp
      cases hp
    have hneg : ¬ n < 0 := by omega
    simp only [productsGetAll, bne_iff_ne, ne_eq, hl, not_false_eq_true, if_true, hp, sliceTo,
      Option.getD_some, hneg, if_false]
    congr 5
    rcases le_total n (products.length : Int) with h | h
    · rw [min_eq_left h]
    · rw [min_eq_right h]
      simp only [Int.toNat_ofNat]
      rw [List.take_of_length_le (le_refl _), List.take_of_length_le]
      omega

theorem productsGetAll_limit_witness :
    productsGetAll (some "1") [.object staleProduct, .object sampleInput] =
      .json 200 (.obj [("products", .arr (([.object staleProduct, .object sampleInput].take (1 : Int).toNat).map Record.toJVal))]) :=
  (productsGetAll_limit [.object staleProduct, .object sampleInput]).2.2.2 "1" 1 (by decide) (by decide)

/-- The update route on a JSON object: when a product with id `pid` is stored, the
answer is the input with its `id` set to `pid` and every other field as in the
input; the collection keeps its length, holds that record at the position of the
first product that had id `pid`, and is unchanged at every other position. -/
theorem productsPut_object_body (pid : String) (input : Obj) (products : List Record)
    (h : ∃ p ∈ products, recordHasId pid p = true) :
    ∃ (i : Nat) (old : Record), products[i]? = some old ∧ recordHasId pid old = true ∧
      (∀ j : Nat, j < i → ∀ y, products[j]? = some y → recordHasId pid y = false) ∧
      (productsPut pid (.object input) products).2 =
        .json 200 (.obj [("message", .str "Producto actualizado"),
          ("product", .obj (setProp input "id" (.str pid)))]) ∧
      getProp (setProp input "id" (.str pid)) "id" = some (.str pid) ∧
      (∀ k, k ≠ "id" → getProp (setProp input "id" (.str pid)) k = getProp input k) ∧
      (productsPut pid (.object input) products).1.length = products.length ∧
      (productsPut pid (.object input) products).1[i]? =
        some (.object (setProp input "id" (.str pid))) ∧
      ∀ j : Nat, j ≠ i → (productsPut pid (.object input) products).1[j]? = products[j]? := by
  obtain ⟨i, hi⟩ := findIndex_isSome (recordHasId pid) products h
  obtain ⟨⟨old, hold, hf⟩, hfirst⟩ := findIndex_some (recordHasId pid) products i hi
  have hlt : i < products.length := by
    rcases Nat.lt_or_ge i products.length with hl | hl
    · exact hl
    · rw [List.getElem?_eq_none hl] at hold
      cases hold
  refine ⟨i, old, hold, hf, hfirst, ?_, getProp_setProp_same _ _ _,
    fun k hk => getProp_setProp_other _ _ _ _ hk, ?_, ?_, ?_⟩
  · simp [productsPut, hi, stampId, Record.toJVal]
  · simp [productsPut, hi]
  · simp [productsPut, hi, stampId, List.getElem?_set, hlt]
  · intro j hj
    have hij : ¬ i = j := fun e => hj e.symm
    simp [productsPut, hi, List.getElem?_set, hij]

/-- Claim C6, the code at a body that is a JSON array: with a product of id `"7"`
stored, updating `"7"` with the body `[]` answers the product `[]` and stores `[]`
in its place, a record that has no `id`. -/
theorem productsPut_array_body_loses_id :
    productsPut "7" (.array []) [.object sampleInput, .object staleProduct] =
        ([.object sampleInput, .array []],
          .json 200 (.obj [("message", .str "Producto actualizado"), ("product", .arr [])])) ∧
      Record.idProp (.array []) = none ∧
      productsGetById "7"
        (productsPut "7" (.array []) [.object sampleInput, .object staleProduct]).1 =
        .json 404 (errorBody "Producto no encontrado") :=
  ⟨rfl, rfl, rfl⟩

/-- Claim C10: creating a cart appends exactly one cart at the end of the collection
and answers it; its `products` is the empty sequence when the input has no
`products` field (so for the empty body), and is the input's `products` when the
input has one. -/
theorem cartsPost_default_and_overlay (now : Nat) (input : Obj) (carts : List Obj) :
    ∃ cart, cartsPost now input carts =
        (carts ++ [cart],
          .json 201 (.obj [("message", .str "Carrito creado"), ("cart", .obj cart)])) ∧
      (getProp input "products" = none → getProp cart "products" = some (.arr [])) ∧
      (∀ v, getProp input "products" = some v → getProp cart "products" = some v) ∧
      (input = [] → cart = [("id", .str (toString now)), ("products", .arr [])]) := by
  refine ⟨_, rfl, ?_, ?_, ?_⟩
  · intro hn
    rw [getProp_spreadInto_none _ _ _ hn]
    rfl
  · intro v hv
    exact getProp_spreadInto_some _ _ _ _ hv
  · intro he
    subst he
    rfl

theorem cartsPost_default_and_overlay_witness :
    ∃ cart, cartsPost 3 [("products", .arr [.num 1])] [] =
        ([] ++ [cart],
          .json 201 (.obj [("message", .str "Carrito creado"), ("cart", .obj cart)])) ∧
      (getProp [("products", JVal.arr [.num 1])] "products" = none →
        getProp cart "products" = some (.arr [])) ∧
      (∀ v, getProp [("products", JVal.arr [.num 1])] "products" = some v →
        getProp cart "products" = some v) ∧
      (([("products", JVal.arr [.num 1])] : Obj) = [] →
        cart = [("id", .str (toString 3)), ("products", .arr [])]) :=
  cartsPost_default_and_overlay 3 [("products", .arr [.num 1])] []

/-! ## Identifiers read from the clock -/

theorem toDigitsCore_ne_nil (b fuel n : Nat) (ds : List Char) (h : ds ≠ []) :
    Nat.toDigitsCore b fuel n ds ≠ [] := by
  induction fuel generalizing n ds with
  | zero => simpa [Nat.toDigitsCore] using h
  | succ f ih =>
    simp only [Nat.toDigitsCore]
    split
    · simp
    · exact ih _ _ (by simp)

theorem toString_nat_ne_empty (n : Nat) : toString n ≠ "" := by
  show Nat.repr n ≠ ""
  unfold Nat.repr Nat.toDigits
  have h : Nat.toDigitsCore 10 (n + 1) n [] ≠ [] := by
    simp only [Nat.toDigitsCore]
    split
    · simp
    · exact toDigitsCore_ne_nil _ _ _ _ (by simp)
  intro e
  apply h
  have := congrArg String.data e
  simpa [List.asString] using this

/-! ## The id invariant along a history -/

theorem set_of_getElem_some {α : Type} (xs : List α) (i : Nat) (a : α) (h : xs[i]? = some a) :
    xs.set i a = xs := by
  induction xs generalizing i with
  | nil => rfl
  | cons x xs ih =>
    cases i with
    | zero =>
      simp at h
      simp [h]
    | succ i =>
      simp at h
      simp [ih i h]

/-- The id of the product a create stores is the one `createdId` names. -/
theorem getProp_id_productToAdd (now : Nat) (input : Obj) :
    getProp (setProp (spreadInto [("id", JVal.str (toString now))] input) "status"
      (JVal.bool true)) "id" = createdId now input := by
  rw [getProp_setProp_other _ _ _ _ (by decide)]
  unfold createdId
  cases hin : getProp input "id" with
  | none =>
    rw [getProp_spreadInto_none _ _ _ hin]
    simp [getProp]
  | some v => exact getProp_spreadInto_some _ _ _ _ hin

theorem idInvariant_productsPost (now : Nat) (input : Obj) (ps : List Record) (s : String)
    (hinv : IdInvariant ps) (hid : createdId now input = some (.str s)) (hne : s ≠ "")
    (hfresh : ∀ p ∈ ps, recordHasId s p = false) :
    IdInvariant (productsPost now input ps).1 := by
  unfold productsPost
  split
  · exact hinv
  · have hP : Record.idProp (.object (setProp (spreadInto [("id", JVal.str (toString now))]
        input) "status" (JVal.bool true))) = some (.str s) := by
      show getProp _ "id" = _
      rw [getProp_id_productToAdd, hid]
    refine ⟨?_, ?_⟩
    · intro p hp
      rcases List.mem_append.mp hp with h | h
      · exact hinv.1 p h
      · rw [List.mem_singleton] at h
        subst h
        exact ⟨s, hP, hne⟩
    · simp only [List.map_append, List.map_cons, List.map_nil, hP]
      rw [List.nodup_append]
      refine ⟨hinv.2, List.nodup_singleton _, ?_⟩
      intro a ha hb
      rw [List.mem_singleton] at hb
      subst hb
      obtain ⟨p, hp, hpid⟩ := List.mem_map.mp ha
      have := hfresh p hp
      rw [(recordHasId_eq_true_iff _ _).mpr hpid] at this
      cases this

theorem idInvariant_productsPut (pid : String) (input : Obj) (ps : List Record)
    (hinv : IdInvariant ps) : IdInvariant (productsPut pid (.object input) ps).1 := by
  unfold productsPut
  cases hi : findIndex (recordHasId pid) ps with
  | none => exact hinv
  | some i =>
    obtain ⟨⟨old, hold, hf⟩, _⟩ := findIndex_some (recordHasId pid) ps i hi
    have hold_id : old.idProp = some (.str pid) := (recordHasId_eq_true_iff _ _).mp hf
    have hmem : old ∈ ps := List.getElem?_mem hold
    have hnew : Record.idProp (stampId (.object input) pid) = some (.str pid) :=
      getProp_setProp_same _ _ _
    refine ⟨?_, ?_⟩
    · intro p hp
      rcases List.mem_or_eq_of_mem_set hp with h | h
      · exact hinv.1 p h
      · subst h
        obtain ⟨s, hs, hne⟩ := hinv.1 old hmem
        rw [hold_id] at hs
        cases hs
        exact ⟨pid, hnew, hne⟩
    · show (List.map Record.idProp (ps.set i (stampId (.object input) pid))).Nodup
      rw [List.map_set, hnew, set_of_getElem_some]
      · exact hinv.2
      · simp [List.getElem?_map, hold, hold_id]

theorem idInvariant_productsDelete (pid : String) (ps : List Record)
    (hinv : IdInvariant ps) : IdInvariant (productsDelete pid ps).1 := by
  unfold productsDelete
  by_cases hlen : (ps.filter (fun p => !recordHasId pid p)).length < ps.length
  · simp only [hlen, if_true]
    refine ⟨fun p hp => hinv.1 p (List.mem_of_mem_filter hp), ?_⟩
    exact List.Nodup.sublist (List.Sublist.map _ (List.filter_sublist ps)) hinv.2
  · simp only [hlen, if_false]
    exact hinv

theorem idInvariant_run (ops : List ProductOp) (ps s : List Record) (hinv : IdInvariant ps)
    (hadm : admissible ops ps = true) (hrun : runOps ops ps = some s) : IdInvariant s := by
  induction ops generalizing ps with
  | nil =>
    simp [runOps] at hrun
    subst hrun
    exact hinv
  | cons op ops ih =>
    simp only [runOps] at hrun
    split at hrun
    · cases op with
      | create now input =>
        simp only [admissible, Bool.and_eq_true] at hadm
        obtain ⟨hcreate, hrest⟩ := hadm
        cases hid : createdId now input with
        | none => simp [hid] at hcreate
        | some v =>
          cases v with
          | str t =>
            simp only [hid, Bool.and_eq_true, bne_iff_ne, ne_eq, List.all_eq_true,
              Bool.not_eq_true'] at hcreate
            exact ih _ (idInvariant_productsPost now input ps t hinv hid hcreate.1 hcreate.2)
              hrest hrun
          | null => simp [hid] at hcreate
          | bool b => simp [hid] at hcreate
          | num n => simp [hid] at hcreate
          | arr xs => simp [hid] at hcreate
          | obj kvs => simp [hid] at hcreate
      | update pid input =>
        cases input with
        | object o =>
          simp only [admissible] at hadm
          exact ih _ (idInvariant_productsPut pid o ps hinv) hadm hrun
        | array xs => simp [admissible] at hadm
      | delete pid =>
        simp only [admissible] at hadm
        exact ih _ (idInvariant_productsDelete pid ps hinv) hadm hrun
    · cases hrun

/-- Claim C8 fails as stated: two successful creates that read the same clock store
two products with the same id; and a successful update whose body is a JSON array
stores a record without id. -/
theorem idInvariant_counterexample :
    (∃ s, runOps [.create 5 sampleInput, .create 5 sampleInput] [] = some s ∧
      ¬ IdInvariant s) ∧
    (∃ s, runOps [.create 5 sampleInput, .update "5" (.array [])] [] = some s ∧
      ¬ IdInvariant s) := by
  refine ⟨⟨_, rfl, ?_⟩, ⟨_, rfl, ?_⟩⟩
  · intro h
    have h2 := h.2
    have e : (List.map Record.idProp
        ((ProductOp.create 5 sampleInput).apply
          ((ProductOp.create 5 sampleInput).apply []).1).1) =
        [some (.str "5"), some (.str "5")] := rfl
    rw [e] at h2
    simp at h2
  · intro h
    have e : ((ProductOp.update "5" (.array [])).apply
        ((ProductOp.create 5 sampleInput).apply []).1).1 = [.array []] := rfl
    rw [e] at h
    obtain ⟨s, hs, _⟩ := h.1 (.array []) (by simp)
    cases hs

/-- Claim C8, amended: starting from the empty collection, after every history of
successful creates, updates and deletes in which each create gives its product an
id (the `id` of the input when it has one, otherwise the clock reading in decimal)
that is a non-empty string and not the id of a product stored at that moment, and
each update has a JSON object as input, every stored product has a non-empty id
and no two stored products share an id. -/
theorem idInvariant_of_admissible (ops : List ProductOp) (s : List Record)
    (hadm : admissible ops [] = true) (hrun : runOps ops [] = some s) : IdInvariant s :=
  idInvariant_run ops [] s ⟨by simp, by simp⟩ hadm hrun

theorem idInvariant_of_admissible_witness :
    IdInvariant [.object [("title", .str "new"), ("id", .str "7")]] :=
  idInvariant_of_admissible
    [.create 1 inputWithId, .create 8 sampleInput, .update "7" (.object [("title", .str "new")]),
      .delete "8"]
    _ (by decide) rfl

/-! ## Adding a product to a cart -/

theorem findIndex_of_find {α : Type} (f : α → Bool) (xs : List α) (x : α)
    (h : xs.find? f = some x) : ∃ i, findIndex f xs = some i ∧ xs[i]? = some x := by
  induction xs with
  | nil => simp at h
  | cons y ys ih =>
    by_cases hy : f y = true
    · simp [List.find?, hy] at h
      subst h
      exact ⟨0, by simp [findIndex, hy], by simp⟩
    · simp [List.find?, hy] at h
      obtain ⟨i, hi, hx⟩ := ih h
      exact ⟨i + 1, by simp [findIndex, hy, hi], by simpa using hx⟩

theorem find_set_findIndex {α : Type} (f : α → Bool) (xs : List α) (i : Nat) (y : α)
    (h : findIndex f xs = some i) (hy : f y = true) : (xs.set i y).find? f = some y := by
  induction xs generalizing i with
  | nil => simp [findIndex] at h
  | cons x xs ih =>
    by_cases hx : f x = true
    · simp [findIndex, hx] at h
      subst h
      simp [List.find?, hy]
    · simp only [findIndex, hx] at h
      cases hr : findIndex f xs with
      | none => simp [hr] at h
      | some j =>
        simp [hr] at h
        subst h
        simp [List.find?, hx, ih j hr]

theorem findLineIndex_of_noLine (pid : String) (lines : List JVal)
    (h : noLineWithId pid lines) : findLineIndex pid lines = some none := by
  induction lines with
  | nil => rfl
  | cons l ls ih =>
    obtain ⟨hnull, hid⟩ := h l (List.mem_cons_self l ls)
    have hrest := ih (fun m hm => h m (List.mem_cons_of_mem _ hm))
    cases l with
    | null => exact absurd rfl hnull
    | obj o =>
      have hid2 : strictEqStr (getProp o "id") pid = false := hid
      simp [findLineIndex, hid2, hrest]
    | bool b => simp [findLineIndex, hrest]
    | num n => simp [findLineIndex, hrest]
    | str s => simp [findLineIndex, hrest]
    | arr xs => simp [findLineIndex, hrest]

theorem findLineIndex_append_hit (pid : String) (lines : List JVal) (o : Obj)
    (h : noLineWithId pid lines) (ho : hasId pid o = true) :
    findLineIndex pid (lines ++ [.obj o]) = some (some lines.length) := by
  induction lines with
  | nil =>
    have ho2 : strictEqStr (getProp o "id") pid = true := ho
    simp [findLineIndex, ho2]
  | cons l ls ih =>
    obtain ⟨hnull, hid⟩ := h l (List.mem_cons_self l ls)
    have hrest := ih (fun m hm => h m (List.mem_cons_of_mem _ hm))
    cases l with
    | null => exact absurd rfl hnull
    | obj p =>
      have hid2 : strictEqStr (getProp p "id") pid = false := hid
      simp [findLineIndex, hid2, hrest]
    | bool b => simp [findLineIndex, hrest]
    | num n => simp [findLineIndex, hrest]
    | str s => simp [findLineIndex, hrest]
    | arr xs => simp [findLineIndex, hrest]

theorem isDouble_of_natAbs_le (n : Int) (h : n.natAbs ≤ 2 ^ 53) : isDouble n := by
  unfold isDouble roundToDouble
  exact if_pos h

theorem addQuantity_last (lines : List JVal) (o : Obj) (q : Option JVal) :
    addQuantity (lines ++ [.obj o]) lines.length q =
      lines ++ [.obj (setProp o "quantity" (jsAdd (getProp o "quantity") q).toJSON)] := by
  simp [addQuantity]

/-- What one call of the route does to a cart that is found and whose `products` is
an array on which the search for `pid` does not throw. -/
theorem cartsPostProduct_found (cid pid : String) (body : Obj) (carts : List Obj) (cart : Obj)
    (lines : List JVal) (r : Option Nat)
    (hcart : carts.find? (hasId cid) = some cart)
    (hlines : getProp cart "products" = some (.arr lines))
    (hr : findLineIndex pid lines = some r) :
    (cartsPostProduct cid pid body carts).1.find? (hasId cid) =
      some (setProp cart "products" (.arr (match r with
        | some j => addQuantity lines j (getProp body "quantity")
        | none => lines ++ [newLine pid (getProp body "quantity")]))) := by
  obtain ⟨i, hi, hget⟩ := findIndex_of_find _ _ _ hcart
  have hid : hasId cid cart = true := by
    have := List.find?_some hcart
    simpa using this
  have hid2 : ∀ v, hasId cid (setProp cart "products" v) = true := by
    intro v
    unfold hasId at hid ⊢
    rw [getProp_setProp_other _ _ _ _ (by decide)]
    exact hid
  unfold cartsPostProduct
  cases r with
  | none =>
    simp only [hi, hget, hlines, hr]
    exact find_set_findIndex _ _ _ _ hi (hid2 _)
  | some j =>
    simp only [hi, hget, hlines, hr]
    exact find_set_findIndex _ _ _ _ hi (hid2 _)

theorem cartsGet_of_find (cid : String) (carts : List Obj) (cart : Obj) (v : JVal)
    (hcart : carts.find? (hasId cid) = some cart) (hv : getProp cart "products" = some v) :
    cartsGet cid carts = .json 200 (.obj [("products", v)]) := by
  simp [cartsGet, hcart, hv]

/-- Claim C9 fails as stated: a cart whose only line item is `null` mentions neither
`x` nor `y`, yet adding `x` makes the search throw, so the answer is the server
error, nothing is stored, and after both calls the cart still holds `null` alone. -/
theorem cartsPostProduct_two_ids_counterexample :
    cartsPostProduct "c" "x" [("quantity", .num 1)] cartsWithNull =
        (cartsWithNull, .serverError) ∧
      cartsGet "c" (cartsPostProduct "c" "y" [("quantity", .num 2)]
          (cartsPostProduct "c" "x" [("quantity", .num 1)] cartsWithNull).1).1 =
        .json 200 (.obj [("products", .arr [.null])]) ∧
      cartsGet "c" (cartsPostProduct "c" "y" [("quantity", .num 2)]
          (cartsPostProduct "c" "x" [("quantity", .num 1)] cartsWithNull).1).1 ≠
        .json 200 (.obj [("products", .arr ([.null] ++
          [.obj [("id", .str "x"), ("quantity", .num 1)],
            .obj [("id", .str "y"), ("quantity", .num 2)]]))]) := by
  have h : cartsGet "c" (cartsPostProduct "c" "y" [("quantity", .num 2)]
      (cartsPostProduct "c" "x" [("quantity", .num 1)] cartsWithNull).1).1 =
      .json 200 (.obj [("products", .arr [.null])]) := rfl
  refine ⟨rfl, h, ?_⟩
  rw [h]
  simp

/-- Claim C9, amended: when the cart with id `C` holds line items none of which is
`null` and none of which has id `X` or id `Y`, with `X` different from `Y`, adding
`X` with quantity `q1` and then `Y` with quantity `q2` leaves the cart with its
previous line items, in their order, followed by the line for `X` and then the
line for `Y`. -/
theorem cartsPostProduct_two_ids (C X Y : String) (b1 b2 : Obj) (q1 q2 : JVal)
    (carts : List Obj) (cart : Obj) (lines : List JVal)
    (hcart : carts.find? (hasId C) = some cart)
    (hlines : getProp cart "products" = some (.arr lines))
    (hX : noLineWithId X lines) (hY : noLineWithId Y lines) (hXY : X ≠ Y)
    (h1 : getProp b1 "quantity" = some q1) (h2 : getProp b2 "quantity" = some q2) :
    cartsGet C (cartsPostProduct C Y b2 (cartsPostProduct C X b1 carts).1).1 =
      .json 200 (.obj [("products", .arr (lines ++
        [.obj [("id", .str X), ("quantity", q1)], .obj [("id", .str Y), ("quantity", q2)]]))]) := by
  have s1 := cartsPostProduct_found C X b1 carts cart lines none hcart hlines
    (findLineIndex_of_noLine X lines hX)
  simp only [h1, newLine] at s1
  have hY2 : noLineWithId Y (lines ++ [.obj [("id", .str X), ("quantity", q1)]]) := by
    intro l hl
    rcases List.mem_append.mp hl with h | h
    · exact hY l h
    · rw [List.mem_singleton] at h
      subst h
      refine ⟨by simp, ?_⟩
      simp [lineHasId, hasId, getProp, strictEqStr, hXY]
  have s2 := cartsPostProduct_found C Y b2 _ _ _ none s1 (getProp_setProp_same _ _ _)
    (findLineIndex_of_noLine Y _ hY2)
  simp only [h2, newLine] at s2
  rw [cartsGet_of_find _ _ _ _ s2 (getProp_setProp_same _ _ _)]
  simp

theorem cartsPostProduct_two_ids_witness :
    cartsGet "c" (cartsPostProduct "c" "z" [("quantity", .num 2)]
        (cartsPostProduct "c" "y" [("quantity", .num 1)] cartsWithLine).1).1 =
      .json 200 (.obj [("products", .arr ([.obj [("id", .str "x"), ("quantity", .num 5)]] ++
        [.obj [("id", .str "y"), ("quantity", .num 1)],
          .obj [("id", .str "z"), ("quantity", .num 2)]]))]) :=
  cartsPostProduct_two_ids "c" "y" "z" [("quantity", .num 1)] [("quantity", .num 2)]
    (.num 1) (.num 2) cartsWithLine _ [.obj [("id", .str "x"), ("quantity", .num 5)]]
    rfl rfl
    (by intro l hl; rw [List.mem_singleton] at hl; subst hl; exact ⟨by simp, by decide⟩)
    (by intro l hl; rw [List.mem_singleton] at hl; subst hl; exact ⟨by simp, by decide⟩)
    (by decide) rfl rfl

/-- Claim C1 fails as stated: in a cart that already holds five of product `x`,
adding `x` with quantity 1 and then with quantity 2 leaves the quantity 8, not
1 + 2; in a cart whose only line item is `null` the first call throws and nothing
is stored; and in an empty cart, adding `x` with quantity 2^53 and then with
quantity 1 leaves 2^53, the double nearest to the sum. -/
theorem cartsPostProduct_merge_counterexample :
    (cartsGet "c" (cartsPostProduct "c" "x" [("quantity", .num 2)]
        (cartsPostProduct "c" "x" [("quantity", .num 1)] cartsWithLine).1).1 =
      .json 200 (.obj [("products", .arr [.obj [("id", .str "x"), ("quantity", .num 8)]])]) ∧
    cartsGet "c" (cartsPostProduct "c" "x" [("quantity", .num 2)]
        (cartsPostProduct "c" "x" [("quantity", .num 1)] cartsWithLine).1).1 ≠
      .json 200 (.obj [("products",
        .arr [.obj [("id", .str "x"), ("quantity", .num (1 + 2))]])])) ∧
    cartsPostProduct "c" "x" [("quantity", .num 1)] cartsWithNull =
      (cartsWithNull, .serverError) ∧
    (cartsGet "c" (cartsPostProduct "c" "x" [("quantity", .num 1)]
        (cartsPostProduct "c" "x" [("quantity", .num 9007199254740992)] cartsWithEmpty).1).1 =
      .json 200 (.obj [("products",
        .arr [.obj [("id", .str "x"), ("quantity", .num 9007199254740992)]])]) ∧
    (9007199254740992 : Int) ≠ 9007199254740992 + 1) := by
  have h : cartsGet "c" (cartsPostProduct "c" "x" [("quantity", .num 2)]
        (cartsPostProduct "c" "x" [("quantity", .num 1)] cartsWithLine).1).1 =
      .json 200 (.obj [("products", .arr [.obj [("id", .str "x"), ("quantity", .num 8)]])]) :=
    rfl
  refine ⟨⟨h, ?_⟩, rfl, rfl, by decide⟩
  rw [h]
  simp

/-- Claim C1, amended: when the cart with id `C` holds line items none of which is
`null` and none of which has id `X`, and `q1`, `q2` are integers that are doubles
whose exact sum is a double (as all integers up to 2^53 in absolute value are),
adding `X` with quantity `q1` and then with quantity `q2` leaves the cart with its
previous line items followed by one line for `X` of quantity `q1 + q2`, which is
the only line with id `X`. -/
theorem cartsPostProduct_merge (C X : String) (b1 b2 : Obj) (q1 q2 : Int)
    (carts : List Obj) (cart : Obj) (lines : List JVal)
    (hcart : carts.find? (hasId C) = some cart)
    (hlines : getProp cart "products" = some (.arr lines))
    (hX : noLineWithId X lines)
    (_hd1 : isDouble q1) (_hd2 : isDouble q2) (hsum : isDouble (q1 + q2))
    (h1 : getProp b1 "quantity" = some (.num q1))
    (h2 : getProp b2 "quantity" = some (.num q2)) :
    cartsGet C (cartsPostProduct C X b2 (cartsPostProduct C X b1 carts).1).1 =
        .json 200 (.obj [("products", .arr (lines ++
          [.obj [("id", .str X), ("quantity", .num (q1 + q2))]]))]) ∧
      List.countP (lineHasId X)
        (lines ++ [JVal.obj [("id", .str X), ("quantity", .num (q1 + q2))]]) = 1 := by
  have s1 := cartsPostProduct_found C X b1 carts cart lines none hcart hlines
    (findLineIndex_of_noLine X lines hX)
  simp only [h1, newLine] at s1
  have hhit : hasId X [("id", .str X), ("quantity", .num q1)] = true := by
    simp [hasId, getProp, strictEqStr]
  have s2 := cartsPostProduct_found C X b2 _ _ _ (some lines.length) s1
    (getProp_setProp_same _ _ _) (findLineIndex_append_hit X lines _ hX hhit)
  simp only [h2, addQuantity_last] at s2
  rw [cartsGet_of_find _ _ _ _ s2 (getProp_setProp_same _ _ _)]
  have hround : roundToDouble (q1 + q2) = some (q1 + q2) := hsum
  refine ⟨?_, ?_⟩
  · simp [setProp, getProp, jsAdd, toPrimitive, Prim.toNumber, AddResult.toJSON, hround]
  · have hzero : lines.countP (lineHasId X) = 0 := by
      rw [List.countP_eq_zero]
      intro l hl
      simp [(hX l hl).2]
    simp [List.countP_append, hzero, lineHasId, hasId, getProp, strictEqStr]

theorem cartsPostProduct_merge_witness :
    cartsGet "c" (cartsPostProduct "c" "y" [("quantity", .num 4)]
        (cartsPostProduct "c" "y" [("quantity", .num 3)] cartsWithLine).1).1 =
        .json 200 (.obj [("products", .arr ([.obj [("id", .str "x"), ("quantity", .num 5)]] ++
          [.obj [("id", .str "y"), ("quantity", .num (3 + 4))]]))]) ∧
      List.countP (lineHasId "y")
        ([JVal.obj [("id", .str "x"), ("quantity", .num 5)]] ++
          [JVal.obj [("id", .str "y"), ("quantity", .num (3 + 4))]]) = 1 :=
  cartsPostProduct_merge "c" "y" [("quantity", .num 3)] [("quantity", .num 4)] 3 4
    cartsWithLine _ [.obj [("id", .str "x"), ("quantity", .num 5)]] rfl rfl
    (by intro l hl; rw [List.mem_singleton] at hl; subst hl; exact ⟨by simp, by decide⟩)
    (isDouble_of_natAbs_le 3 (by decide)) (isDouble_of_natAbs_le 4 (by decide))
    (isDouble_of_natAbs_le (3 + 4) (by decide)) rfl rfl

end App
